import Mathlib

/-!
A verification development for the StaticGen static site generator.

The Python modules `url_helpers.py`, `front_matter_parser.py`,
`data_collections_loader.py` and `build_core.py` are embedded shallowly:
pure functions become Lean functions over `String` / `List`, the file system
walk becomes an explicit list of discovered files, and the imperative render
loop becomes a function producing a trace of events (hook invocations, file
writes, record appends, log lines).  External libraries (Python's `json`,
`datetime.strptime`, `os.path`) are modelled by explicit Lean functions or
by function parameters where only their success/failure shape matters.
-/

namespace StaticGen

/-- JSON values, as produced by Python's `json.loads` / `json.load`.
Numbers are modelled as integers (no claim depends on float payloads). -/
inductive Json where
  | null : Json
  | bool : Bool → Json
  | num : Int → Json
  | str : String → Json
  | arr : List Json → Json
  | obj : List (String × Json) → Json

/-- Python truthiness of a parsed JSON value (`if front_matter` etc.):
`None`, `False`, `0`, `""`, `[]`, `{}` are falsy, everything else truthy. -/
def Json.truthy : Json → Bool
  | .null => false
  | .bool b => b
  | .num n => n != 0
  | .str s => s != ""
  | .arr l => !l.isEmpty
  | .obj m => !m.isEmpty

/-- Whether a JSON value is an object (a Python `dict` / `Mapping`). -/
def Json.isObj : Json → Bool
  | .obj _ => true
  | _ => false

/-- Lookup in a Python dict modelled as an insertion-ordered association list
(`d.get(k)` / `k in d`). -/
def assocLookup (m : List (String × Json)) (k : String) : Option Json :=
  match m with
  | [] => none
  | (k', v) :: rest => if k' = k then some v else assocLookup rest k

/-- Python dict assignment `d[k] = v`: replaces the value in place if the key
exists (keeping its position), otherwise appends the new binding at the end
(CPython dicts preserve insertion order). -/
def assocSet (m : List (String × Json)) (k : String) (v : Json) :
    List (String × Json) :=
  match m with
  | [] => [(k, v)]
  | (k', v') :: rest =>
      if k' = k then (k, v) :: rest else (k', v') :: assocSet rest k v

/-! ### Python string primitives used by the sources -/

/-- Python `s.lstrip('/')` on the character list: drop every leading slash. -/
def pyLstripSlashL (l : List Char) : List Char := l.dropWhile (· == '/')

/-- Python `s.lstrip('/')`. -/
def pyLstripSlash (s : String) : String := ⟨pyLstripSlashL s.data⟩

/-- Index of the first occurrence of `sep` (a non-empty pattern) in a
character list, if any; used to model `str.split(sep, maxsplit)`. -/
def findSub (sep : List Char) : List Char → Option Nat
  | [] => none
  | c :: rest =>
      if sep.isPrefixOf (c :: rest) then some 0
      else (findSub sep rest).map (· + 1)

/-- Python `s.split(sep, maxsplit)` on character lists: repeatedly cut at the
leftmost occurrence of `sep`, at most `maxsplit` times. -/
def pySplitL (sep : List Char) : Nat → List Char → List (List Char)
  | 0, s => [s]
  | m + 1, s =>
      match findSub sep s with
      | none => [s]
      | some i => s.take i :: pySplitL sep m (s.drop (i + sep.length))

/-- Python `s.split(sep, maxsplit)` for a non-empty separator. -/
def pySplit (sep : String) (maxsplit : Nat) (s : String) : List String :=
  (pySplitL sep.data maxsplit s.data).map (fun l => ⟨l⟩)

/-- The whitespace characters stripped by Python `str.strip()`
(ASCII: space, tab, newline, carriage return, vertical tab, form feed). -/
def pyWhitespace (c : Char) : Bool :=
  c == ' ' || c == '\t' || c == '\n' || c == '\r' || c == '\x0b' || c == '\x0c'

/-- Python `s.strip()` on character lists. -/
def pyStripL (l : List Char) : List Char :=
  ((l.dropWhile pyWhitespace).reverse.dropWhile pyWhitespace).reverse

/-- Python `s.strip()`. -/
def pyStrip (s : String) : String := ⟨pyStripL s.data⟩

/-- Python `s.split(c)` (full split on a single-character separator, as in
`name.split(os.sep)`); `"".split(c)` is `[""]`. -/
def splitCharL (c : Char) : List Char → List (List Char)
  | [] => [[]]
  | x :: xs =>
      if x == c then [] :: splitCharL c xs
      else
        match splitCharL c xs with
        | [] => [[x]]
        | h :: t => (x :: h) :: t

/-- Python `s.split(c)` for strings. -/
def splitChar (c : Char) (s : String) : List String :=
  (splitCharL c s.data).map (fun l => ⟨l⟩)

/-- Python `s.lower()` (ASCII case folding suffices for the `.json`
extension comparison). -/
def pyLower (s : String) : String := ⟨s.data.map Char.toLower⟩

/-! ### `url_helpers.py` -/

/-- The configuration keys the embedded functions read.  `use_absolute_urls`
and `use_absolute_static` model `config.get(...)` being present and truthy. -/
structure Config where
  base_url : String
  use_absolute_urls : Bool
  use_absolute_static : Bool
  output_dir : String

/-- Function `url(path, config)` from `url_helpers.py`. -/
def url (path : String) (config : Config) : String :=
  if config.use_absolute_urls then
    config.base_url ++ "/" ++ pyLstripSlash path
  else
    "/" ++ pyLstripSlash path

/-- Function `static(path, config)` from `url_helpers.py`.  `fileOnDisk` models the
`os.path.exists` probe of the joined static path; the function only logs a
warning when the file is missing and returns the URL regardless.  The second
component records whether that warning was logged. -/
def static (fileOnDisk : Bool) (path : String) (config : Config) :
    String × Bool :=
  (if config.use_absolute_static then
     config.base_url ++ "/static/" ++ pyLstripSlash path
   else
     "/static/" ++ pyLstripSlash path,
   !fileOnDisk)

/-! ### `front_matter_parser.py` -/

/-- Function `parse_front_matter(content)` from `front_matter_parser.py`.
`loads` models `json.loads`: `some v` when the header parses as the JSON
value `v`, `none` when `json.JSONDecodeError` is raised (the caught branch).
The Python function returns `front_matter if front_matter else {}`, so a
falsy parse result degrades to the empty dict. -/
def parse_front_matter (loads : String → Option Json) (content : String) :
    Json × String :=
  if ("+++".data.isPrefixOf content.data) then
    let parts := pySplit "+++" 2 content
    if parts.length > 2 then
      match loads (parts.getD 1 "") with
      | some front_matter =>
          (if front_matter.truthy then front_matter else Json.obj [],
           pyStrip (parts.getD 2 ""))
      | none => (Json.obj [], content)
    else (Json.obj [], content)
  else (Json.obj [], content)

/-! ### `data_collections_loader.py` : `load_data_files` -/

/-- Index of the last `'.'` in a character list, used by
`os.path.splitext`. -/
def lastDotIdx (l : List Char) : Option Nat :=
  ((l.enum.filter (fun p => p.2 == '.')).getLast?).map (·.1)

/-- Model of `os.path.splitext` on a bare file name (as yielded by `os.walk`, so no
directory separator occurs): split at the last dot, unless every character
before it is itself a dot (then there is no extension). -/
def splitext (s : String) : String × String :=
  match lastDotIdx s.data with
  | none => (s, "")
  | some i =>
      if (s.data.take i).all (· == '.') then (s, "")
      else (⟨s.data.take i⟩, ⟨s.data.drop i⟩)

/-- One file discovered by `os.walk` over the data directory.
`dirParts` are the components of the walk root relative to `data_dir`; the
source uses the root only to build `file_path` (for opening) and
`relative_path` (for logging), never for the key computation.  `fileName` is
the basename yielded by the walk (it never contains the path separator).
`parsed` is the result of `json.load` on the opened file, `none` modelling
any exception while opening or parsing (the caught-and-logged branch). -/
structure WalkFile where
  dirParts : List String
  fileName : String
  parsed : Option Json

/-- The `keys[:-1]` `setdefault` walk followed by the guarded
`current_data_node[keys[-1]] = json.load(f)` assignment of
`load_data_files`, functionalised.  `none` models an exception escaping
`load_data_files` itself (a `setdefault` call on a non-dict node, which sits
outside the `try` block).  A `TypeError` raised by the final item assignment
on a non-dict node is inside the `try` and so is caught (the file is
skipped), but intermediate dicts created by `setdefault` before a failed
`json.load` persist, exactly as in the imperative original. -/
def insertDataPath (m : List (String × Json)) :
    List String → Option Json → Option (List (String × Json))
  | [], _ => some m
  | [k], parsed =>
      match parsed with
      | some v => some (assocSet m k v)
      | none => some m
  | k :: k2 :: rest, parsed =>
      match assocLookup m k with
      | some (Json.obj sub) =>
          (insertDataPath sub (k2 :: rest) parsed).map
            (fun sub' => assocSet m k (Json.obj sub'))
      | some _ =>
          if rest.isEmpty then some m else none
      | none =>
          (insertDataPath [] (k2 :: rest) parsed).map
            (fun sub' => m ++ [(k, Json.obj sub')])

/-- The per-file body of the `os.walk` loop in `load_data_files`:
non-`.json` files are skipped with a warning; for JSON files the key list is
`name.split(os.sep)` where `name` is the file name without its extension. -/
def processDataFile (m : List (String × Json)) (f : WalkFile) :
    Option (List (String × Json)) :=
  let ne := splitext f.fileName
  if pyLower ne.2 = ".json" then
    insertDataPath m (splitChar '/' ne.1) f.parsed
  else
    some m

/-- The walk loop of `load_data_files`, threading the `data` dict through
the per-file step; `none` aborts (an uncaught exception). -/
def loadDataLoop (m : List (String × Json)) :
    List WalkFile → Option (List (String × Json))
  | [] => some m
  | f :: rest =>
      match processDataFile m f with
      | some m' => loadDataLoop m' rest
      | none => none

/-- Function `load_data_files(config)` over the list of files discovered by
`os.walk(data_dir)`, in walk order.  `none` models an uncaught exception. -/
def load_data_files (files : List WalkFile) :
    Option (List (String × Json)) :=
  loadDataLoop [] files

/-! ### `build_core.py` : RSS feed generation -/

/-- A `datetime.datetime` restricted to its date components (the parsed
`"%Y-%m-%d"` values have zero time-of-day); comparison is lexicographic. -/
structure PyDate where
  year : Nat
  month : Nat
  day : Nat
deriving DecidableEq

/-- Model of `datetime.datetime.min`: year 1, month 1, day 1. -/
def datetimeMin : PyDate := ⟨1, 1, 1⟩

/-- Lexicographic comparison of datetimes (`a <= b`). -/
def PyDate.le (a b : PyDate) : Prop :=
  a.year < b.year ∨
    (a.year = b.year ∧
      (a.month < b.month ∨ (a.month = b.month ∧ a.day ≤ b.day)))

instance (a b : PyDate) : Decidable (PyDate.le a b) := by
  unfold PyDate.le
  exact inferInstance

/-- Numeric value of an all-digit character list. -/
def digitsToNat (l : List Char) : Nat :=
  l.foldl (fun n c => n * 10 + (c.toNat - '0'.toNat)) 0

/-- The `%m` / `%d` fields of `strptime`: one or two ASCII digits whose value
lies in `lo..hi` (the one- and two-digit regex alternatives of Python's
`_strptime`, which exclude `"00"` and three-digit forms). -/
def strptimeField (s : String) (lo hi : Nat) : Option Nat :=
  if s.data ≠ [] ∧ s.data.length ≤ 2 ∧ s.data.all Char.isDigit ∧
      lo ≤ digitsToNat s.data ∧ digitsToNat s.data ≤ hi then
    some (digitsToNat s.data)
  else none

/-- Day count of a month under the proleptic Gregorian rules used by
`datetime` (leap year: divisible by 4 and not by 100, or by 400). -/
def daysInMonth (y m : Nat) : Nat :=
  if m = 2 then
    if y % 4 = 0 ∧ (y % 100 ≠ 0 ∨ y % 400 = 0) then 29 else 28
  else if m = 4 ∨ m = 6 ∨ m = 9 ∨ m = 11 then 30
  else 31

/-- Model of `datetime.datetime.strptime(s, "%Y-%m-%d")`, returning `none` where
Python raises `ValueError`: the year is exactly four ASCII digits, month and
day follow the `%m`/`%d` field shapes, the whole string must be consumed
(hence the exact three-way dash split), and the resulting date must be a
valid calendar date with year at least 1. -/
def parsePyDate (s : String) : Option PyDate :=
  match splitChar '-' s with
  | [ys, ms, ds] =>
      if ys.data.length = 4 ∧ ys.data.all Char.isDigit then
        match strptimeField ms 1 12, strptimeField ds 1 31 with
        | some m, some d =>
            if 1 ≤ digitsToNat ys.data ∧
                d ≤ daysInMonth (digitsToNat ys.data) m then
              some ⟨digitsToNat ys.data, m, d⟩
            else none
        | _, _ => none
      else none
  | _ => none

/-- One item of the `posts` collection as `generate_rss_feed` sees it. -/
structure Post where
  url : String
  front_matter : List (String × Json)
  content : String

/-- The sort key a post ends up with after the date-normalisation loop of
`generate_rss_feed`: the `_date_obj` stored for a parseable string `date`
field, `datetime.min` stored for an unparseable one, and the
`get('_date_obj', datetime.min)` default when the field is missing or not a
string.  (Faithful provided the incoming front matter does not already
contain a `_date_obj` key, which the theorems assume.) -/
def postDateKey (p : Post) : PyDate :=
  match assocLookup p.front_matter "date" with
  | some (Json.str s) =>
      match parsePyDate s with
      | some d => d
      | none => datetimeMin
  | _ => datetimeMin

/-- The ordering `sorted(posts, key=..., reverse=True)` sorts by: `x` may
come before `y` exactly when `y`'s key is at most `x`'s key. -/
def rssGE (x y : Post) : Prop := PyDate.le (postDateKey y) (postDateKey x)

instance : DecidableRel rssGE := fun x y => by
  unfold rssGE
  exact inferInstance

instance : IsTotal Post rssGE :=
  ⟨fun x y => by unfold rssGE PyDate.le; omega⟩

instance : IsTrans Post rssGE :=
  ⟨fun x y z hxy hyz => by
    unfold rssGE PyDate.le at hxy hyz ⊢
    omega⟩

/-- Model of `sorted(posts, key=lambda x: ..., reverse=True)`: CPython's sort is
stable, and `reverse=True` yields the descending order with ties kept in
list order; insertion sort with `rssGE` computes exactly that list. -/
def pySortPostsDesc (posts : List Post) : List Post :=
  List.insertionSort rssGE posts

/-- The `<item>` entries `generate_rss_feed` emits: `none` when the `posts`
collection is missing or empty (the early `return`, no feed written),
otherwise the first 10 posts of the descending stable sort. -/
def generate_rss_items (posts : List Post) : Option (List Post) :=
  if posts.isEmpty then none else some ((pySortPostsDesc posts).take 10)

/-- The claimed ordering property, written from the specification's words:
`sortedPosts` is a permutation of the discovered `posts`, pairwise
descending by parsed date, and stable — posts with any fixed date key appear
in exactly their discovery order. -/
def StableDescendingByDateSpec (posts sortedPosts : List Post) : Prop :=
  sortedPosts.Perm posts ∧
  sortedPosts.Pairwise rssGE ∧
  ∀ k : PyDate,
    sortedPosts.filter (fun p => decide (postDateKey p = k)) =
      posts.filter (fun p => decide (postDateKey p = k))

/-- The `description` element text of one RSS item:
`post['front_matter'].get('description', post['content'][:200] + "..." if
len(post['content']) > 200 else post['content'])` — the conditional
expression is the `get` default. -/
def rssDescription (p : Post) : Json :=
  match assocLookup p.front_matter "description" with
  | some v => v
  | none =>
      Json.str (if p.content.length > 200 then
                  ⟨p.content.data.take 200⟩ ++ "..."
                else p.content)

/-! ### `build_core.py` : the render loop as an event trace -/

/-- Observable steps of `render_all_content`, in program order:
hook invocations, output file writes, appends to `rendered_pages_info`
(source path and resolved URL), and logged error/warning lines. -/
inductive Ev where
  | beforeHook : String → Ev
  | afterHook : String → String → Ev
  | wrote : String → String → Ev
  | recorded : String → String → Ev
  | logged : String → Ev
deriving DecidableEq

/-- Model of `os.path.join(a, b)` for a relative second component `b` (the only shape
the embedded call sites produce). -/
def osJoin (a b : String) : String :=
  if a = "" then b
  else if a.data.getLast? = some '/' then a ++ b
  else a ++ "/" ++ b

/-- Function `_render_and_save_output`: a raising `template_obj.render` (modelled by
`rendered = none`) is caught and logged, producing no write and no record;
on success the output is written and a page record (source path, resolved
URL) is produced for `rendered_pages_info`. -/
def render_and_save_output (rendered : Option String)
    (outputPath sourcePath urlStr : String) : List Ev :=
  match rendered with
  | none => [Ev.logged sourcePath]
  | some out => [Ev.wrote outputPath out, Ev.recorded sourcePath urlStr]

/-- One page of `pages_dir` as the render loop sees it: its source path, its
path relative to `pages_dir`, whether `env.from_string` on its body succeeds
(`compiles`), and the outcome of `template_obj.render` (`none` = raises). -/
structure PageIn where
  src : String
  relOut : String
  compiles : Bool
  rendered : Option String

/-- The body of the pages loop of `render_all_content` for one page file.
On a template-compilation failure the `continue` skips the rest of the loop
body, including the `after_render_page` hook. -/
def processPage (cfg : Config) (p : PageIn) : List Ev :=
  let outputPath := osJoin cfg.output_dir p.relOut
  Ev.beforeHook p.src ::
    (if p.compiles then
       render_and_save_output p.rendered outputPath p.src (url p.relOut cfg)
         ++ [Ev.afterHook p.src outputPath]
     else [Ev.logged p.src])

/-- One collection item as the render loop sees it: source path, basename of
the source path, the `layout` front-matter value (`none` = key missing),
whether `env.get_template(layout)` succeeds, and the render outcome. -/
structure ItemIn where
  src : String
  baseName : String
  layout : Option String
  layoutLoads : Bool
  rendered : Option String

/-- Python truthiness of `front_matter.get("layout")` as tested by
`if not layout_name`. -/
def layoutTruthy : Option String → Bool
  | none => false
  | some l => l ≠ ""

/-- The body of the collection loop of `render_all_content` for one item,
given the collection's configured `output` prefix.  A missing/falsy layout
and a failing `env.get_template` both `continue` before the
`after_render_page` hook. -/
def processItem (cfg : Config) (outputName : String) (it : ItemIn) :
    List Ev :=
  let relOut := osJoin outputName it.baseName
  let outputPath := osJoin cfg.output_dir relOut
  Ev.beforeHook it.src ::
    (if layoutTruthy it.layout then
       if it.layoutLoads then
         render_and_save_output it.rendered outputPath it.src (url relOut cfg)
           ++ [Ev.afterHook it.src outputPath]
       else [Ev.logged it.src]
     else [Ev.logged it.src])

/-- Function `render_all_content`: all pages in walk order, then every collection
(paired with its configured `output` prefix) item by item. -/
def render_all_content (cfg : Config) (pages : List PageIn)
    (collections : List (String × List ItemIn)) : List Ev :=
  (pages.map (processPage cfg)).flatten ++
    (collections.map
      (fun c => (c.2.map (processItem cfg c.1)).flatten)).flatten

/-- The `rendered_pages_info` list determined by a trace: the
(source path, url) pairs appended, in order. -/
def recordsOf (evs : List Ev) : List (String × String) :=
  evs.filterMap (fun e =>
    match e with
    | Ev.recorded s u => some (s, u)
    | _ => none)

/-- The output files written during a trace: (path, contents) in order. -/
def writesOf (evs : List Ev) : List (String × String) :=
  evs.filterMap (fun e =>
    match e with
    | Ev.wrote p o => some (p, o)
    | _ => none)

/-- Whether an `after_render_page` hook for source path `src` occurs in a
trace. -/
def hasAfterHook (evs : List Ev) (src : String) : Bool :=
  evs.any (fun e =>
    match e with
    | Ev.afterHook s _ => s = src
    | _ => false)

/-! ### `data_collections_loader.py` / `build_core.py` : collection URLs -/

/-- Model of `os.path.relpath(file_path, collection_path)` for a file at directory
components `relDirs` with basename `fileName` below the collection root:
the components joined with the path separator. -/
def relPathOfSegs : List String → String
  | [] => ""
  | [s] => s
  | s :: rest => s ++ "/" ++ relPathOfSegs rest

/-- The `url` field `load_collections` attaches to an item:
`url(os.path.join(output, relative_path), config)` with the full relative
path of the source file under the collection root. -/
def load_collections_item_url (cfg : Config) (outputName : String)
    (relDirs : List String) (fileName : String) : String :=
  url (osJoin outputName (relPathOfSegs (relDirs ++ [fileName]))) cfg

/-- The URL under which `render_all_content` actually writes a collection
item and records it (`_render_and_save_output` resolves
`os.path.relpath(output_path, output_dir)`, i.e. the output prefix joined
with only `os.path.basename(page_source_path)`). -/
def render_item_url (cfg : Config) (outputName : String)
    (fileName : String) : String :=
  url (osJoin outputName fileName) cfg

/-! ### Sample inputs used by concrete evaluations -/

/-- A configuration with relative URLs everywhere. -/
def sampleCfg : Config := ⟨"http://e", false, false, "out"⟩

/-- A configuration enabling absolute page URLs but not absolute static
URLs. -/
def cfgAbsUrlOnly : Config := ⟨"http://e", true, false, "out"⟩

/-- A concrete stand-in for `json.loads` on the sample headers used below:
parses the bare numeral `5` and the empty object, rejects everything else. -/
def loadsSample (s : String) : Option Json :=
  if s = "5" then some (Json.num 5)
  else if s = "{}" then some (Json.obj [])
  else none

/-- Sample post dated 2024-01-01. -/
def postJan : Post := ⟨"/blog/a.html", [("date", Json.str "2024-01-01")], "january body"⟩

/-- Sample post dated 2024-03-01. -/
def postMar : Post := ⟨"/blog/b.html", [("date", Json.str "2024-03-01")], "march body"⟩

/-- Sample post with an unparseable date. -/
def postBad : Post := ⟨"/blog/c.html", [("date", Json.str "not-a-date")], "undated body"⟩

/-- The three sample posts in discovery order. -/
def samplePosts : List Post := [postJan, postMar, postBad]

/-- Sample post with an explicit front-matter description. -/
def postWithDesc : Post :=
  ⟨"/blog/d.html", [("description", Json.str "a summary")], "body text"⟩

/-- A page whose body compiles and renders. -/
def okPage : PageIn := ⟨"pages/ok.html", "ok.html", true, some "<html>"⟩

/-- A page whose body fails to compile as a template. -/
def badCompilePage : PageIn := ⟨"pages/bad.html", "bad.html", false, none⟩

/-- A page whose template compiles but raises during rendering. -/
def failRenderPage : PageIn := ⟨"pages/err.html", "err.html", true, none⟩

/-- A collection item without a `layout` front-matter value. -/
def noLayoutItem : ItemIn := ⟨"content/blog/x.html", "x.html", none, true, some "o"⟩

/-- A collection item whose layout loads but whose render raises. -/
def failRenderItem : ItemIn :=
  ⟨"content/blog/y.html", "y.html", some "post.html", true, none⟩

end StaticGen

namespace StaticGen

/-! ## Helper lemmas -/

theorem string_data_mk (l : List Char) : (String.mk l).data = l := rfl

theorem string_append_cancel_left {a b c : String} (h : a ++ b = a ++ c) :
    b = c := by
  have hd := congrArg String.data h
  simp only [String.data_append] at hd
  exact String.ext (List.append_cancel_left hd)

theorem pyLstripSlash_data (s : String) :
    (pyLstripSlash s).data = s.data.dropWhile (· == '/') := rfl

theorem pyLstripSlash_slash_cons (p : String) :
    pyLstripSlash ("/" ++ p) = pyLstripSlash p := by
  apply String.ext
  rw [pyLstripSlash_data, pyLstripSlash_data, String.data_append]
  have h : ("/" : String).data = ['/'] := rfl
  rw [h]
  simp [List.dropWhile_cons]

theorem pyLstripSlash_of_head {s : String} {c : Char} {t : List Char}
    (hs : s.data = c :: t) (hc : (c == '/') = false) :
    pyLstripSlash s = s := by
  apply String.ext
  rw [pyLstripSlash_data, hs]
  simp [List.dropWhile_cons, hc]

theorem pyLstripSlash_static_pre (x : String) :
    pyLstripSlash ("static/" ++ x) = "static/" ++ x := by
  apply pyLstripSlash_of_head (c := 's') (t := "tatic/".data ++ x.data)
  · rw [String.data_append]
    rfl
  · rfl

theorem string_slash_assoc (b x : String) :
    b ++ "/" ++ ("static/" ++ x) = b ++ "/static/" ++ x := by
  apply String.ext
  simp only [String.data_append, List.append_assoc]
  rfl

theorem pySplitL_length_le (sep : List Char) :
    ∀ (m : Nat) (s : List Char), (pySplitL sep m s).length ≤ m + 1 := by
  intro m
  induction m with
  | zero => intro s; simp [pySplitL]
  | succ n ih =>
      intro s
      unfold pySplitL
      cases h : findSub sep s with
      | none => simp
      | some i =>
          simp only [List.length_cons]
          have := ih (s.drop (i + sep.length))
          omega

theorem pySplit_length_le (sep : String) (m : Nat) (s : String) :
    (pySplit sep m s).length ≤ m + 1 := by
  unfold pySplit
  rw [List.length_map]
  exact pySplitL_length_le sep.data m s.data

theorem loadDataLoop_ignores_dirs (files : List WalkFile) :
    ∀ m, loadDataLoop m (files.map fun f => ⟨[], f.fileName, f.parsed⟩) =
      loadDataLoop m files := by
  induction files with
  | nil => intro m; rfl
  | cons f rest ih =>
      intro m
      cases f with
      | mk dp fn pr =>
          have hpd : processDataFile m ⟨[], fn, pr⟩ =
              processDataFile m ⟨dp, fn, pr⟩ := rfl
          simp only [List.map_cons, loadDataLoop, hpd]
          cases h : processDataFile m ⟨dp, fn, pr⟩ with
          | none => rfl
          | some m' => exact ih m'

/-- The directory structure below the data root never influences the data
tree built by `load_data_files`: only file names (minus extension) do. -/
theorem load_data_files_ignores_dirs (files : List WalkFile) :
    load_data_files (files.map fun f => ⟨[], f.fileName, f.parsed⟩) =
      load_data_files files :=
  loadDataLoop_ignores_dirs files []

/-! ## Claims -/

/-- Claim C9: for every path and configuration, `url` returns
`base_url ++ "/" ++ path-with-leading-slashes-stripped` when absolute URLs
are enabled and `"/" ++ stripped-path` otherwise, and consequently `url` is
insensitive to leading slashes on its input. -/
theorem c9_url_shape (p : String) (c : Config) :
    url p c = (if c.use_absolute_urls then
                 c.base_url ++ "/" ++ pyLstripSlash p
               else "/" ++ pyLstripSlash p) ∧
    url p c = url ("/" ++ p) c := by
  refine ⟨rfl, ?_⟩
  unfold url
  rw [pyLstripSlash_slash_cons]

/-- Claim C3 counterexample: with `use_absolute_urls` set and
`use_absolute_static` unset, `url` produces an absolute URL while `static`
produces a root-relative one, so `static` does not follow the same
absolute/relative switch as `url`. -/
theorem c3_counterexample :
    url "x" cfgAbsUrlOnly = "http://e/x" ∧
    (static true "x" cfgAbsUrlOnly).1 = "/static/x" ∧
    (static true "x" cfgAbsUrlOnly).1 ≠ "http://e" ++ "/static/" ++ "x" :=
  ⟨by decide, by decide, by decide⟩

/-- Claim C3 (amended): `static` switches on its own `use_absolute_static`
configuration key, not on the switch `url` uses — it equals `url` applied to
the `/static/`-prefixed path under a configuration whose absolute-URL switch
is `use_absolute_static` — and when the referenced file is missing it still
returns the URL, recording only a logged warning (second component). -/
theorem c3_static_amended (fe : Bool) (p : String) (c : Config) :
    (static fe p c).1 =
      url ("static/" ++ pyLstripSlash p)
        { c with use_absolute_urls := c.use_absolute_static } ∧
    ((static fe p c).2 = true ↔ fe = false) := by
  constructor
  · unfold static url
    cases h : c.use_absolute_static with
    | false =>
        simp only [h, if_neg Bool.false_ne_true, pyLstripSlash_static_pre]
        exact (string_slash_assoc "" (pyLstripSlash p)).symm
    | true =>
        simp only [h, if_pos rfl, pyLstripSlash_static_pre]
        exact (string_slash_assoc c.base_url (pyLstripSlash p)).symm
  · unfold static
    cases fe <;> simp

/-- Claim C7: the full case analysis of `parse_front_matter`: splitting on
the delimiter yields at most three parts; text not starting with the
delimiter is returned unchanged with empty front matter; a missing closing
delimiter (fewer than three parts) returns the whole raw text as body; a
JSON-parsing header returns the parsed-or-empty value with the rest stripped
of surrounding whitespace; a failing header returns empty front matter with
the whole original text, delimiters included, as body. -/
theorem c7_parse_front_matter_cases (loads : String → Option Json)
    (content : String) :
    (pySplit "+++" 2 content).length ≤ 3 ∧
    ("+++".data.isPrefixOf content.data = false →
      parse_front_matter loads content = (Json.obj [], content)) ∧
    ("+++".data.isPrefixOf content.data = true →
      (pySplit "+++" 2 content).length < 3 →
      parse_front_matter loads content = (Json.obj [], content)) ∧
    (∀ j, "+++".data.isPrefixOf content.data = true →
      3 ≤ (pySplit "+++" 2 content).length →
      loads ((pySplit "+++" 2 content).getD 1 "") = some j →
      parse_front_matter loads content =
        ((if j.truthy then j else Json.obj []),
         pyStrip ((pySplit "+++" 2 content).getD 2 ""))) ∧
    ("+++".data.isPrefixOf content.data = true →
      3 ≤ (pySplit "+++" 2 content).length →
      loads ((pySplit "+++" 2 content).getD 1 "") = none →
      parse_front_matter loads content = (Json.obj [], content)) := by
  refine ⟨pySplit_length_le _ _ _, ?_, ?_, ?_, ?_⟩
  · intro h
    unfold parse_front_matter
    rw [if_neg]
    simp [h]
  · intro h hlen
    unfold parse_front_matter
    rw [if_pos (by simp [h]), if_neg (by omega)]
  · intro j h hlen hj
    unfold parse_front_matter
    rw [if_pos (by simp [h]), if_pos (by omega), hj]
  · intro h hlen hj
    unfold parse_front_matter
    rw [if_pos (by simp [h]), if_pos (by omega), hj]

/-- Claim C7 witness: a concrete well-formed header evaluates the
JSON-success branch. -/
theorem c7_witness :
    ("+++".data.isPrefixOf ("+++{}+++ hi".data) = true ∧
     3 ≤ (pySplit "+++" 2 "+++{}+++ hi").length ∧
     loadsSample ((pySplit "+++" 2 "+++{}+++ hi").getD 1 "") =
       some (Json.obj [])) ∧
    parse_front_matter loadsSample "+++{}+++ hi" = (Json.obj [], "hi") :=
  ⟨⟨by decide, by decide, rfl⟩,
   (c7_parse_front_matter_cases loadsSample "+++{}+++ hi").2.2.2.1
     (Json.obj []) (by decide) (by decide) rfl⟩

/-- Claim C6 (code-bug evaluation): for the input `+++5+++body` the parser
returns the bare JSON number `5` as first component — not a mapping — even
though the function's own docstring and every caller expect a dict. -/
theorem c6_front_matter_non_mapping :
    parse_front_matter loadsSample "+++5+++body" = (Json.num 5, "body") ∧
    (parse_front_matter loadsSample "+++5+++body").1.isObj = false :=
  ⟨rfl, rfl⟩

/-- Claim C2: the RSS item description is the front matter's `description`
value when present; otherwise the first 200 characters of the raw body with
an ellipsis appended when the body is longer than 200 characters, and the
full raw body otherwise. -/
theorem c2_rss_description (p : Post) :
    (∀ v, assocLookup p.front_matter "description" = some v →
      rssDescription p = v) ∧
    (assocLookup p.front_matter "description" = none →
      200 < p.content.length →
      rssDescription p = Json.str (⟨p.content.data.take 200⟩ ++ "...")) ∧
    (assocLookup p.front_matter "description" = none →
      p.content.length ≤ 200 →
      rssDescription p = Json.str p.content) := by
  refine ⟨?_, ?_, ?_⟩
  · intro v hv
    unfold rssDescription
    rw [hv]
  · intro hn hl
    unfold rssDescription
    rw [hn, if_pos hl]
  · intro hn hl
    unfold rssDescription
    rw [hn, if_neg (by omega)]

/-- Claim C2 witness: concrete posts exercising the present-description and
short-body branches. -/
theorem c2_witness :
    (assocLookup postJan.front_matter "description" = none ∧
     postJan.content.length ≤ 200 ∧
     rssDescription postJan = Json.str postJan.content) ∧
    (assocLookup postWithDesc.front_matter "description" =
       some (Json.str "a summary") ∧
     rssDescription postWithDesc = Json.str "a summary") :=
  ⟨⟨rfl, by decide, (c2_rss_description postJan).2.2 rfl (by decide)⟩,
   ⟨rfl, (c2_rss_description postWithDesc).1 (Json.str "a summary") rfl⟩⟩

/-- Claim C1 (code-bug evaluation): a readable data file at relative path
`sub/item.json` is stored flat at `data["item"]` — the `sub` directory
never becomes a nested key, because the source splits the extension-less
file name (never the relative path) on the path separator. -/
theorem c1_data_tree_flat :
    load_data_files [⟨["sub"], "item.json", some (Json.num 42)⟩] =
      some [("item", Json.num 42)] ∧
    assocLookup [("item", Json.num 42)] "sub" = none :=
  ⟨rfl, rfl⟩

/-! ## Sorting lemmas for the RSS feed -/

theorem pyDateLe_refl (d : PyDate) : PyDate.le d d := by
  unfold PyDate.le
  omega

theorem strptimeField_bounds {s : String} {lo hi n : Nat}
    (h : strptimeField s lo hi = some n) : lo ≤ n ∧ n ≤ hi := by
  unfold strptimeField at h
  split_ifs at h with hc
  simp only [Option.some_inj] at h
  subst h
  exact ⟨hc.2.2.2.1, hc.2.2.2.2⟩

theorem parsePyDate_bounds {s : String} {d : PyDate}
    (h : parsePyDate s = some d) :
    1 ≤ d.year ∧ 1 ≤ d.month ∧ 1 ≤ d.day := by
  unfold parsePyDate at h
  split at h
  · split_ifs at h with hy
    split at h
    case _ m dd hm hd =>
      have hmb := strptimeField_bounds hm
      have hdb := strptimeField_bounds hd
      split_ifs at h with hcal
      simp only [Option.some_inj] at h
      subst h
      exact ⟨hcal.1, hmb.1, hdb.1⟩
    all_goals cases h
  · cases h

theorem postDateKey_min_le (p : Post) :
    PyDate.le datetimeMin (postDateKey p) := by
  unfold postDateKey
  split
  · split
    case _ d hd =>
      have hb := parsePyDate_bounds hd
      simp only [PyDate.le, datetimeMin]
      omega
    case _ => exact pyDateLe_refl datetimeMin
  · exact pyDateLe_refl datetimeMin

theorem filter_orderedInsert {α : Type _} (r : α → α → Prop) [DecidableRel r]
    (q : α → Bool) (a : α) :
    ∀ l : List α, (∀ b ∈ l, q a = true → q b = true → r a b) →
      (List.orderedInsert r a l).filter q =
        if q a then a :: l.filter q else l.filter q := by
  intro l
  induction l with
  | nil =>
      intro _
      simp [List.orderedInsert, List.filter_cons]
  | cons b t ih =>
      intro h
      by_cases hr : r a b
      · rw [List.orderedInsert, if_pos hr, List.filter_cons]
      · rw [List.orderedInsert, if_neg hr, List.filter_cons]
        have iht := ih (fun c hc => h c (List.mem_cons_of_mem b hc))
        by_cases hqa : q a = true
        · have hqb : ¬ q b = true := fun hqb =>
            hr (h b (List.mem_cons_self b t) hqa hqb)
          rw [if_neg hqb, iht, if_pos hqa, List.filter_cons,
            if_neg hqb, if_pos hqa]
        · rw [iht, if_neg hqa, if_neg hqa, List.filter_cons]

theorem filter_insertionSort {α : Type _} (r : α → α → Prop) [DecidableRel r]
    (q : α → Bool) (hq : ∀ a b : α, q a = true → q b = true → r a b) :
    ∀ l : List α, (List.insertionSort r l).filter q = l.filter q := by
  intro l
  induction l with
  | nil => rfl
  | cons b t ih =>
      rw [List.insertionSort,
        filter_orderedInsert r q b _ (fun c _ ha hc => hq b c ha hc), ih,
        List.filter_cons]

/-- Claim C4: `generate_rss_feed` sorts the `posts` collection descending by
the `date` front-matter field parsed with the strict `%Y-%m-%d` format,
placing unparseable or missing dates at the minimum possible key (not
excluding them), keeps ties in discovery order (stability), and emits
exactly the `min 10 n` most recent items.  (The assumption that no front
matter already carries a `_date_obj` key reflects the code storing its
parsed key under that name.) -/
theorem c4_rss_sort (posts : List Post)
    (hfm : ∀ p ∈ posts, assocLookup p.front_matter "_date_obj" = none)
    (hne : posts ≠ []) :
    generate_rss_items posts = some ((pySortPostsDesc posts).take 10) ∧
    StableDescendingByDateSpec posts (pySortPostsDesc posts) ∧
    ((pySortPostsDesc posts).take 10).length = min 10 posts.length ∧
    ∀ p ∈ posts, PyDate.le datetimeMin (postDateKey p) := by
  refine ⟨?_, ⟨?_, ?_, ?_⟩, ?_, ?_⟩
  · unfold generate_rss_items
    cases posts with
    | nil => exact absurd rfl hne
    | cons a t => rfl
  · exact List.perm_insertionSort rssGE posts
  · exact List.sorted_insertionSort rssGE posts
  · intro k
    exact filter_insertionSort rssGE (fun p => decide (postDateKey p = k))
      (fun a b ha hb => by
        simp only [decide_eq_true_eq] at ha hb
        unfold rssGE
        rw [ha, hb]
        exact pyDateLe_refl k)
      posts
  · unfold pySortPostsDesc
    rw [List.length_take, List.length_insertionSort]
  · intro p _
    exact postDateKey_min_le p

/-- Claim C4 witness: the specification's example — posts dated
`2024-01-01`, `2024-03-01` and one with an unparseable date sort to
`[2024-03-01, 2024-01-01, unparseable]`. -/
theorem c4_witness :
    (∀ p ∈ samplePosts, assocLookup p.front_matter "_date_obj" = none) ∧
    samplePosts ≠ [] ∧
    (generate_rss_items samplePosts =
       some ((pySortPostsDesc samplePosts).take 10) ∧
     StableDescendingByDateSpec samplePosts (pySortPostsDesc samplePosts) ∧
     ((pySortPostsDesc samplePosts).take 10).length =
       min 10 samplePosts.length ∧
     ∀ p ∈ samplePosts, PyDate.le datetimeMin (postDateKey p)) ∧
    pySortPostsDesc samplePosts = [postMar, postJan, postBad] := by
  have hfm : ∀ p ∈ samplePosts,
      assocLookup p.front_matter "_date_obj" = none := by
    intro p hp
    simp only [samplePosts, List.mem_cons, List.not_mem_nil, or_false] at hp
    rcases hp with h | h | h
    all_goals subst h
    all_goals rfl
  have hne : samplePosts ≠ [] := by simp [samplePosts]
  exact ⟨hfm, hne, c4_rss_sort samplePosts hfm hne, rfl⟩

/-! ## The render loop traces -/

theorem recordsOf_append (a b : List Ev) :
    recordsOf (a ++ b) = recordsOf a ++ recordsOf b :=
  List.filterMap_append a b _

theorem writesOf_append (a b : List Ev) :
    writesOf (a ++ b) = writesOf a ++ writesOf b :=
  List.filterMap_append a b _

/-- Claim C5 counterexample: for a page whose template fails to compile the
loop `continue`s, so the trace holds the `before_render_page` hook and the
logged error but no `after_render_page` hook — the claim that the hook also
fires on skipped items is false. -/
theorem c5_counterexample :
    processPage sampleCfg badCompilePage =
      [Ev.beforeHook "pages/bad.html", Ev.logged "pages/bad.html"] ∧
    hasAfterHook (processPage sampleCfg badCompilePage) "pages/bad.html" =
      false :=
  ⟨rfl, rfl⟩

/-- Claim C5 (amended): the `after_render_page` hook fires for every item
that reaches rendering — whether the render succeeds or raises — but does
not fire when the item is skipped beforehand: page template-compilation
failure, missing or falsy collection layout, or layout load failure. -/
theorem c5_after_hook_amended (cfg : Config) (p : PageIn)
    (outputName : String) (it : ItemIn) :
    (p.compiles = true → hasAfterHook (processPage cfg p) p.src = true) ∧
    (p.compiles = false → hasAfterHook (processPage cfg p) p.src = false) ∧
    (layoutTruthy it.layout = true → it.layoutLoads = true →
      hasAfterHook (processItem cfg outputName it) it.src = true) ∧
    (layoutTruthy it.layout = false ∨ it.layoutLoads = false →
      hasAfterHook (processItem cfg outputName it) it.src = false) := by
  refine ⟨?_, ?_, ?_, ?_⟩
  · intro hc
    cases hrd : p.rendered with
    | none => simp [processPage, hasAfterHook, render_and_save_output, hc, hrd]
    | some o => simp [processPage, hasAfterHook, render_and_save_output, hc, hrd]
  · intro hc
    simp [processPage, hasAfterHook, hc]
  · intro hl hll
    cases hrd : it.rendered with
    | none =>
        simp [processItem, hasAfterHook, render_and_save_output, hl, hll, hrd]
    | some o =>
        simp [processItem, hasAfterHook, render_and_save_output, hl, hll, hrd]
  · intro hskip
    rcases hskip with hl | hll
    · simp [processItem, hasAfterHook, hl]
    · cases hl : layoutTruthy it.layout with
      | false => simp [processItem, hasAfterHook, hl]
      | true => simp [processItem, hasAfterHook, hl, hll]

/-- Claim C5 witness: the amended behaviour at concrete inputs — a page
that renders gets the hook, an item without a layout does not. -/
theorem c5_witness :
    okPage.compiles = true ∧
    hasAfterHook (processPage sampleCfg okPage) okPage.src = true ∧
    (layoutTruthy noLayoutItem.layout = false ∨
      noLayoutItem.layoutLoads = false) ∧
    hasAfterHook (processItem sampleCfg "blog" noLayoutItem)
      noLayoutItem.src = false :=
  ⟨rfl,
   (c5_after_hook_amended sampleCfg okPage "blog" noLayoutItem).1 rfl,
   Or.inl rfl,
   (c5_after_hook_amended sampleCfg okPage "blog" noLayoutItem).2.2.2
     (Or.inl rfl)⟩

/-- Claim C8: a template that raises during evaluation is caught and
logged; the item writes no output file and appends no page record, the
`after_render_page` hook still fires, and the rest of the build — the other
pages and every collection item — is processed exactly as if the failing
item's trace were spliced in, leaving the record and write lists of the
remaining items unchanged. -/
theorem c8_render_failure_isolated (cfg : Config) (p : PageIn)
    (pre post : List PageIn) (colls : List (String × List ItemIn))
    (outputName : String) (it : ItemIn)
    (hc : p.compiles = true) (hr : p.rendered = none)
    (hl : layoutTruthy it.layout = true) (hll : it.layoutLoads = true)
    (hir : it.rendered = none) :
    processPage cfg p = [Ev.beforeHook p.src, Ev.logged p.src,
      Ev.afterHook p.src (osJoin cfg.output_dir p.relOut)] ∧
    recordsOf (processPage cfg p) = [] ∧
    writesOf (processPage cfg p) = [] ∧
    processItem cfg outputName it = [Ev.beforeHook it.src, Ev.logged it.src,
      Ev.afterHook it.src (osJoin cfg.output_dir (osJoin outputName it.baseName))] ∧
    recordsOf (processItem cfg outputName it) = [] ∧
    writesOf (processItem cfg outputName it) = [] ∧
    render_all_content cfg (pre ++ p :: post) colls =
      render_all_content cfg pre [] ++ processPage cfg p ++
        render_all_content cfg post colls ∧
    recordsOf (render_all_content cfg (pre ++ p :: post) colls) =
      recordsOf (render_all_content cfg (pre ++ post) colls) ∧
    writesOf (render_all_content cfg (pre ++ p :: post) colls) =
      writesOf (render_all_content cfg (pre ++ post) colls) := by
  have h1 : processPage cfg p = [Ev.beforeHook p.src, Ev.logged p.src,
      Ev.afterHook p.src (osJoin cfg.output_dir p.relOut)] := by
    simp [processPage, render_and_save_output, hc, hr]
  have h4 : processItem cfg outputName it = [Ev.beforeHook it.src,
      Ev.logged it.src,
      Ev.afterHook it.src (osJoin cfg.output_dir (osJoin outputName it.baseName))] := by
    simp [processItem, render_and_save_output, hl, hll, hir]
  have hsplit : render_all_content cfg (pre ++ p :: post) colls =
      render_all_content cfg pre [] ++ processPage cfg p ++
        render_all_content cfg post colls := by
    simp [render_all_content, List.map_append, List.flatten_append,
      List.append_assoc]
  refine ⟨h1, by rw [h1]; rfl, by rw [h1]; rfl, h4, by rw [h4]; rfl,
    by rw [h4]; rfl, hsplit, ?_, ?_⟩
  · have hsplit2 : render_all_content cfg (pre ++ post) colls =
        render_all_content cfg pre [] ++ render_all_content cfg post colls := by
      simp [render_all_content, List.map_append, List.flatten_append,
        List.append_assoc]
    rw [hsplit, hsplit2, recordsOf_append, recordsOf_append, recordsOf_append,
      h1, show recordsOf [Ev.beforeHook p.src, Ev.logged p.src,
        Ev.afterHook p.src (osJoin cfg.output_dir p.relOut)] = [] from rfl,
      List.append_nil]
  · have hsplit2 : render_all_content cfg (pre ++ post) colls =
        render_all_content cfg pre [] ++ render_all_content cfg post colls := by
      simp [render_all_content, List.map_append, List.flatten_append,
        List.append_assoc]
    rw [hsplit, hsplit2, writesOf_append, writesOf_append, writesOf_append,
      h1, show writesOf [Ev.beforeHook p.src, Ev.logged p.src,
        Ev.afterHook p.src (osJoin cfg.output_dir p.relOut)] = [] from rfl,
      List.append_nil]

/-- Claim C8 witness: splicing a render-failing page between a successful
page and a render-failing collection item leaves the record list of the
build unchanged. -/
theorem c8_witness :
    (failRenderPage.compiles = true ∧ failRenderPage.rendered = none ∧
     layoutTruthy failRenderItem.layout = true ∧
     failRenderItem.layoutLoads = true ∧ failRenderItem.rendered = none) ∧
    recordsOf (render_all_content sampleCfg
        ([okPage] ++ failRenderPage :: []) [("blog", [failRenderItem])]) =
      recordsOf (render_all_content sampleCfg ([okPage] ++ [])
        [("blog", [failRenderItem])]) :=
  ⟨⟨rfl, rfl, rfl, rfl, rfl⟩,
   (c8_render_failure_isolated sampleCfg failRenderPage [okPage] []
     [("blog", [failRenderItem])] "blog" failRenderItem
     rfl rfl rfl rfl rfl).2.2.2.2.2.2.2.1⟩

/-! ## Collection URL discrepancy -/

theorem string_eq_iff_data {s t : String} : s = t ↔ s.data = t.data :=
  ⟨congrArg String.data, String.ext⟩

theorem dropSlash_append_cancel {a b : List Char}
    (ha : ∃ c t, a = c :: t ∧ (c == '/') = false)
    (hb : ∃ c t, b = c :: t ∧ (c == '/') = false) :
    ∀ q : List Char,
      ((q ++ a).dropWhile (· == '/') = (q ++ b).dropWhile (· == '/') ↔
        a = b) := by
  intro q
  induction q with
  | nil =>
      obtain ⟨c, t, rfl, hc⟩ := ha
      obtain ⟨c', t', rfl, hc'⟩ := hb
      simp [List.dropWhile_cons, hc, hc']
  | cons x q ih =>
      by_cases hx : (x == '/') = true
      · simpa [List.dropWhile_cons, hx] using ih
      · simp only [Bool.not_eq_true] at hx
        simp [List.dropWhile_cons, hx]

theorem strip_osJoin_cancel (o : String) {ra rb : String}
    (hra : ∃ c t, ra.data = c :: t ∧ (c == '/') = false)
    (hrb : ∃ c t, rb.data = c :: t ∧ (c == '/') = false) :
    (pyLstripSlash (osJoin o ra) = pyLstripSlash (osJoin o rb) ↔ ra = rb) := by
  rw [string_eq_iff_data (s := pyLstripSlash (osJoin o ra)),
    string_eq_iff_data (s := ra), pyLstripSlash_data, pyLstripSlash_data]
  unfold osJoin
  split_ifs with h1 h2
  · subst h1
    exact dropSlash_append_cancel hra hrb []
  · rw [String.data_append, String.data_append]
    exact dropSlash_append_cancel hra hrb o.data
  · rw [String.data_append, String.data_append, String.data_append,
      String.data_append]
    exact dropSlash_append_cancel hra hrb (o.data ++ ("/" : String).data)

theorem url_eq_iff_strip (x y : String) (c : Config) :
    (url x c = url y c ↔ pyLstripSlash x = pyLstripSlash y) := by
  unfold url
  split_ifs with h
  · constructor
    · intro he
      exact string_append_cancel_left (a := c.base_url ++ "/") he
    · intro he
      rw [he]
  · constructor
    · intro he
      exact string_append_cancel_left (a := "/") he
    · intro he
      rw [he]

theorem relPathOfSegs_cons_ne (s : String) (rest : List String)
    (h : rest ≠ []) :
    relPathOfSegs (s :: rest) = s ++ "/" ++ relPathOfSegs rest := by
  cases rest with
  | nil => exact absurd rfl h
  | cons a t => rfl

theorem relPathOfSegs_length_ge (f : String) :
    ∀ ds : List String, f.length ≤ (relPathOfSegs (ds ++ [f])).length := by
  intro ds
  induction ds with
  | nil => simp [relPathOfSegs]
  | cons d t ih =>
      rw [List.cons_append, relPathOfSegs_cons_ne d (t ++ [f]) (by simp),
        String.length_append, String.length_append]
      omega

theorem string_head_of_ne {d : String} (hd : d ≠ "") :
    ∃ c t, d.data = c :: t := by
  cases hh : d.data with
  | nil => exact absurd (String.ext (by rw [hh])) hd
  | cons c t => exact ⟨c, t, rfl⟩

theorem string_pos_of_ne {d : String} (hd : d ≠ "") : 0 < d.length := by
  obtain ⟨c, t, hh⟩ := string_head_of_ne hd
  show 0 < d.data.length
  rw [hh]
  simp

theorem relPathOfSegs_head (d : String) (rest : List String)
    (hd : d ≠ "") (hslash : '/' ∉ d.data) :
    ∃ c t, (relPathOfSegs (d :: rest)).data = c :: t ∧ (c == '/') = false := by
  obtain ⟨c, dt, hdt⟩ := string_head_of_ne hd
  have hc : (c == '/') = false := by
    have hmem : c ∈ d.data := by
      rw [hdt]
      exact List.mem_cons_self c dt
    have : c ≠ '/' := fun he => hslash (he ▸ hmem)
    simpa using this
  cases rest with
  | nil => exact ⟨c, dt, hdt, hc⟩
  | cons a t =>
      refine ⟨c, dt ++ (("/" : String).data ++ (relPathOfSegs (a :: t)).data),
        ?_, hc⟩
      rw [relPathOfSegs_cons_ne d (a :: t) (by simp), String.data_append,
        String.data_append, hdt]
      simp

/-- Claim C10: the `url` field `load_collections` attaches (output prefix
joined with the item's full path relative to the collection root) and the
URL at which `render_all_content` actually writes and records the item
(output prefix joined with only the basename) coincide exactly for items
located directly in the collection root. -/
theorem c10_collection_url_mismatch (cfg : Config) (outputName : String)
    (relDirs : List String) (fileName : String)
    (hf : fileName ≠ "" ∧ '/' ∉ fileName.data)
    (hd : ∀ d ∈ relDirs, d ≠ "" ∧ '/' ∉ d.data) :
    (load_collections_item_url cfg outputName relDirs fileName =
       render_item_url cfg outputName fileName ↔ relDirs = []) := by
  unfold load_collections_item_url render_item_url
  have hfhead : ∃ c t, fileName.data = c :: t ∧ (c == '/') = false := by
    obtain ⟨c, t, hh⟩ := string_head_of_ne hf.1
    have hmem : c ∈ fileName.data := by
      rw [hh]
      exact List.mem_cons_self c t
    have hcne : c ≠ '/' := fun he => hf.2 (he ▸ hmem)
    exact ⟨c, t, hh, by simpa using hcne⟩
  have hrahead : ∃ c t, (relPathOfSegs (relDirs ++ [fileName])).data =
      c :: t ∧ (c == '/') = false := by
    cases relDirs with
    | nil => exact hfhead
    | cons d t =>
        rw [List.cons_append]
        exact relPathOfSegs_head d (t ++ [fileName])
          (hd d (List.mem_cons_self d t)).1 (hd d (List.mem_cons_self d t)).2
  rw [url_eq_iff_strip, strip_osJoin_cancel outputName hrahead hfhead]
  constructor
  · intro he
    cases relDirs with
    | nil => rfl
    | cons d t =>
        exfalso
        have hlen := congrArg String.length he
        rw [List.cons_append, relPathOfSegs_cons_ne d (t ++ [fileName])
          (by simp), String.length_append, String.length_append] at hlen
        have hge := relPathOfSegs_length_ge fileName t
        have hdl := string_pos_of_ne (hd d (List.mem_cons_self d t)).1
        have hsl : ("/" : String).length = 1 := rfl
        omega
  · intro he
    subst he
    rfl

/-- Claim C10 witness: for an item in subdirectory `sub` the collection URL
and the written URL differ; for an item at the collection root they agree. -/
theorem c10_witness :
    ("p.html" ≠ "" ∧ '/' ∉ "p.html".data) ∧
    (∀ d ∈ ["sub"], d ≠ "" ∧ '/' ∉ d.data) ∧
    (load_collections_item_url sampleCfg "blog" ["sub"] "p.html" =
       render_item_url sampleCfg "blog" "p.html" ↔ ["sub"] = ([] : List String)) ∧
    load_collections_item_url sampleCfg "blog" ["sub"] "p.html" =
      "/blog/sub/p.html" ∧
    render_item_url sampleCfg "blog" "p.html" = "/blog/p.html" ∧
    (load_collections_item_url sampleCfg "blog" [] "p.html" =
       render_item_url sampleCfg "blog" "p.html" ↔ ([] : List String) = []) := by
  have hf : ("p.html" : String) ≠ "" ∧ '/' ∉ ("p.html" : String).data := by
    constructor
    · decide
    · decide
  have hd : ∀ d ∈ (["sub"] : List String), d ≠ "" ∧ '/' ∉ d.data := by
    intro d hdm
    simp only [List.mem_cons, List.not_mem_nil, or_false] at hdm
    subst hdm
    exact ⟨by decide, by decide⟩
  refine ⟨hf, hd,
    c10_collection_url_mismatch sampleCfg "blog" ["sub"] "p.html" hf hd,
    rfl, rfl,
    c10_collection_url_mismatch sampleCfg "blog" [] "p.html" hf
      (by intro d hdm; cases hdm)⟩

end StaticGen
